import Mathlib

/-!
Verification of `update_exceptions.py`.

A shallow embedding of the catch-block rewriting script. The script works on
plain text with two `re` patterns, both of which are plain concatenations of
string literals and single-character-class quantifiers (`\s+`, `\s*`, `[^,]+`,
`[^']+`, `['"]`, `;?`, lazy `.*?`). We embed exactly that pattern class:
an `Atom` is a literal or a quantified character class, and `matchAtoms`
implements Python's backtracking order (greedy quantifiers try longest
first, lazy ones shortest first, alternatives in document order), returning
the per-atom consumed lengths of the first successful assignment.
`search` is `re.search` (leftmost match), `subF` is `re.sub`, and `findallF`
is `re.findall`; capture groups are contiguous atom ranges. Characters are
`Char`, documents are `List Char`; Python's `\s` is modelled by its ASCII
members, which covers every character the script's patterns and the
documents under test use.
-/

set_option autoImplicit false
set_option maxRecDepth 100000

namespace UpdateExceptions

/-- The single-quote character, written by code to keep source free of bare quotes. -/
def sq : Char := '\x27'

/-- The double-quote character. -/
def dq : Char := '\x22'

/-- ASCII members of Python's `\s` class. -/
def isSpace (c : Char) : Bool :=
  c = ' ' || c = '\t' || c = '\n' || c = '\x0d' || c = '\x0b' || c = '\x0c'

/-- The character classes appearing in the script's regular expressions. -/
inductive Cls where
  | space     -- `\s`
  | notComma  -- `[^,]`
  | notQuote  -- `[^']`
  | quoteAny  -- `['"]`
  | semi      -- `;`
  | anyc      -- `.` under DOTALL
deriving DecidableEq, Repr

def Cls.mem : Cls → Char → Bool
  | .space, c => isSpace c
  | .notComma, c => decide (c ≠ ',')
  | .notQuote, c => decide (c ≠ sq)
  | .quoteAny, c => c = sq || c = dq
  | .semi, c => c = ';'
  | .anyc, _ => true

/-- One pattern element: a literal, or a quantified character class. -/
inductive Atom where
  | lit (s : List Char)                 -- literal text
  | one (c : Cls)                       -- class, exactly once
  | opt (c : Cls)                       -- class, `?` (greedy)
  | star (c : Cls) (lazy : Bool)        -- class, `*`
  | plus (c : Cls) (lazy : Bool)        -- class, `+`
deriving Repr

/-- Literal prefix test (like `str.startswith`). -/
def litPref : List Char → List Char → Bool
  | [], _ => true
  | _ :: _, [] => false
  | a :: as, b :: bs => if a = b then litPref as bs else false

/-- Length of the maximal run of characters of class `c` at the head of `s`. -/
def runLen (c : Cls) : List Char → Nat
  | [] => 0
  | x :: xs => if c.mem x then runLen c xs + 1 else 0

/-- The consumption lengths an atom may take at the head of `s`, in the order
Python's backtracking engine tries them. -/
def candidates : Atom → List Char → List Nat
  | .lit l, s => if litPref l s then [l.length] else []
  | .one c, s =>
    match s with
    | [] => []
    | x :: _ => if c.mem x then [1] else []
  | .opt c, s =>
    match s with
    | [] => [0]
    | x :: _ => if c.mem x then [1, 0] else [0]
  | .star c lz, s =>
    let n := runLen c s
    if lz then List.range (n + 1) else (List.range (n + 1)).reverse
  | .plus c lz, s =>
    let n := runLen c s
    if lz then (List.range (n + 1)).drop 1 else ((List.range (n + 1)).reverse).dropLast

/-- Backtracking matcher: the per-atom consumed lengths of the first
successful assignment at the head of `s`, in Python's trial order. -/
def matchAtoms : List Atom → List Char → Option (List Nat)
  | [], _ => some []
  | a :: as, s =>
    (candidates a s).findSome? fun k => (matchAtoms as (s.drop k)).map (k :: ·)

/-- Model of `re.search`: leftmost position (including the end position) where the
pattern matches, with the per-atom lengths. -/
def search (pat : List Atom) : List Char → Option (Nat × List Nat)
  | [] => (matchAtoms pat []).map (fun ks => (0, ks))
  | s@(_ :: rest) =>
    match matchAtoms pat s with
    | some ks => some (0, ks)
    | none => (search pat rest).map (fun p => (p.1 + 1, p.2))

/-- Sum of the first `n` entries of `ks`: offset of atom `n` inside a match. -/
def sumTake (ks : List Nat) (n : Nat) : Nat := (ks.take n).sum

/-- The text consumed by atoms `[lo, hi)` of a match whose suffix-at-match is
`s` and per-atom lengths are `ks` (a capture group). -/
def grp (s : List Char) (ks : List Nat) (lo hi : Nat) : List Char :=
  (s.drop (sumTake ks lo)).take (sumTake ks hi - sumTake ks lo)

/-- Model of `re.sub` with a replacement callback receiving the suffix at the match and
the per-atom lengths. The fuel bounds the number of replacements; each match
consumes at least one character for the patterns used here, so fuel
`s.length + 1` is always sufficient. -/
def subF (pat : List Atom) (rep : List Char → List Nat → List Char) :
    Nat → List Char → List Char
  | 0, s => s
  | Nat.succ f, s =>
    match search pat s with
    | none => s
    | some (i, ks) =>
      let t := sumTake ks ks.length
      if t = 0 then s
      else s.take i ++ rep (s.drop i) ks ++ subF pat rep f (s.drop (i + t))

/-- Model of `re.findall` (pattern without groups): the list of matched substrings,
leftmost first, non-overlapping. -/
def findallF (pat : List Atom) : Nat → List Char → List (List Char)
  | 0, _ => []
  | Nat.succ f, s =>
    match search pat s with
    | none => []
    | some (i, ks) =>
      let t := sumTake ks ks.length
      if t = 0 then []
      else ((s.drop i).take t) :: findallF pat f (s.drop (i + t))

/-- Substring test (Python's `in` on strings). -/
def hasSub (needle : List Char) : List Char → Bool
  | [] => litPref needle []
  | s@(_ :: rest) => litPref needle s || hasSub needle rest

/-- Characters of a string literal. -/
def lchars (s : String) : List Char := s.data

/-! ## The transform pattern (`update_catch_blocks`, source lines 13-19)

The regex, read off atom by atom.  Group 1 is atoms `[0, 17)`, group 2 is
atoms `[19, 32)`, group 3 is atoms `[36, 48)`; the whole match is `[0, 49)`.
Literal `{`/`}`/quote characters are written with `\x` escapes. -/

/-- Greedy `\s+`. -/
def wsP : Atom := .plus .space false

/-- Greedy `\s*`. -/
def wsS : Atom := .star .space false

def transformPat : List Atom := [
  .lit (lchars "\x7d"),                               -- 0  `}`
  wsP,                                                -- 1
  .lit (lchars "catch"),                              -- 2
  wsP,                                                -- 3
  .lit (lchars "(GuzzleException"),                   -- 4
  wsP,                                                -- 5
  .lit (lchars "$e)"),                                -- 6
  wsP,                                                -- 7
  .lit (lchars "\x7b"),                               -- 8  `{`
  wsS,                                                -- 9
  .lit (lchars "\n"),                                 -- 10
  wsP,                                                -- 11
  .lit (lchars "$errorMessage"),                      -- 12
  wsP,                                                -- 13
  .lit (lchars "="),                                  -- 14
  wsP,                                                -- 15
  .lit (lchars "$this->extractErrorMessage($e);"),    -- 16  (group 1 ends)
  wsS,                                                -- 17
  .lit (lchars "\n"),                                 -- 18
  wsP,                                                -- 19  (group 2 starts)
  .lit (lchars "$this->logger->error("),              -- 20
  .plus .notComma false,                              -- 21  `[^,]+`
  .lit (lchars ","),                                  -- 22
  wsP,                                                -- 23
  .lit (lchars "["),                                  -- 24
  .one .quoteAny,                                     -- 25  `['"]`
  .lit (lchars "error"),                              -- 26
  .one .quoteAny,                                     -- 27
  wsP,                                                -- 28
  .lit (lchars "=>"),                                 -- 29
  wsP,                                                -- 30
  .lit (lchars "$errorMessage"),                      -- 31  (group 2 ends)
  .lit (lchars "]"),                                  -- 32
  .opt .semi,                                         -- 33  `;?`
  wsS,                                                -- 34
  .lit (lchars "\n"),                                 -- 35
  wsP,                                                -- 36  (group 3 starts)
  .lit (lchars "throw"),                              -- 37
  wsP,                                                -- 38
  .lit (lchars "new"),                                -- 39
  wsP,                                                -- 40
  .lit (lchars "RagApiException("),                   -- 41
  .plus .notComma false,                              -- 42  `[^,]+`
  .lit (lchars ","),                                  -- 43
  wsP,                                                -- 44
  .lit (lchars "$e->getCode(),"),                     -- 45
  wsP,                                                -- 46
  .lit (lchars "$e)"),                                -- 47  (group 3 ends)
  .lit (lchars ";")]                                  -- 48

/-! ## The replacement builder (source lines 21-49) -/

/-- Pattern of `re.search(r"throw\s+new\s+RagApiException\('([^']+)'", ...)`
(source line 28); the capture is atom 5. -/
def descPat : List Atom := [
  .lit (lchars "throw"),
  wsP,
  .lit (lchars "new"),
  wsP,
  .lit (lchars "RagApiException(\x27"),
  .plus .notQuote false,
  .lit (lchars "\x27")]

/-- Value of `error_match.group(1)`: the single-quoted literal extracted from the
throw line, `none` when the inner search fails. -/
def descOf (t : List Char) : Option (List Char) :=
  (search descPat t).map (fun p => grp (t.drop p.1) p.2 5 6)

/-- Source line 22, `indent`: a fixed twelve spaces. -/
def indent12 : List Char := lchars "            "

/-- The replacement callback (source lines 21-49).  `g1`, `g2`, `g3` are
`match.group(1..3)`, `g0` is `match.group(0)`.  In the Python source, lines
41-46 are f-strings containing `\$`; `\$` is not a recognized escape in
Python, so the backslash is kept and the emitted text contains `\$...`
verbatim — the embedding reproduces that (`"\\$"` below). -/
def replacement (g1 g2 g3 g0 : List Char) : List Char :=
  match descOf g3 with
  | none => g0
  | some d =>
    g1 ++ lchars "\n"
      ++ indent12 ++ lchars "$errorData = $this->extractErrorData($e);\n"
      ++ indent12 ++ lchars "$errorCode = $this->extractErrorCode($e);\n"
      ++ g2 ++ lchars ", \x27error_code\x27 => $errorCode];\n"
      ++ indent12 ++ lchars "throw new RagApiException(\n"
      ++ indent12 ++ lchars "    \x27" ++ d ++ lchars "\x27 . \\$errorMessage,\n"
      ++ indent12 ++ lchars "    \\$e->getCode(),\n"
      ++ indent12 ++ lchars "    \\$e,\n"
      ++ indent12 ++ lchars "    null,\n"
      ++ indent12 ++ lchars "    \\$errorCode,\n"
      ++ indent12 ++ lchars "    \\$errorData\n"
      ++ indent12 ++ lchars ");"

/-- The callback as used by `pattern.sub`: extract groups 1-3 and the whole
match from the suffix at the match and the per-atom lengths. -/
def replacementAt (s : List Char) (ks : List Nat) : List Char :=
  replacement (grp s ks 0 17) (grp s ks 19 32) (grp s ks 36 48) (grp s ks 0 49)

/-- Function `update_catch_blocks` (source lines 8-54): `pattern.sub(replacement, content)`. -/
def update_catch_blocks (s : List Char) : List Char :=
  subF transformPat replacementAt (s.length + 1) s

/-! ## The idempotency gate and per-file flow (source lines 56-93) -/

/-- Lazy `.*?` under DOTALL. -/
def anyLazy : Atom := .star .anyc true

/-- The loose counting pattern of the gate (source lines 67-70). -/
def gatePat : List Atom := [
  .lit (lchars "extractErrorMessage"),
  anyLazy,
  .lit (lchars "\n"),
  anyLazy,
  .lit (lchars "logger->error"),
  anyLazy,
  .lit (lchars "\n"),
  anyLazy,
  .lit (lchars "throw new RagApiException"),
  anyLazy,
  .lit (lchars "$e->getCode"),
  anyLazy,
  .lit (lchars ";")]

/-- The enriched marker, `extractErrorData`. -/
def marker : List Char := lchars "extractErrorData"

/-- Source lines 71-72, `sum(1 for m in matches if ... not in m)` over
`pattern.findall(content)` (source lines 71-72). -/
def needsUpdate (s : List Char) : Nat :=
  ((findallF gatePat (s.length + 1) s).filter (fun m => ! hasSub marker m)).length

/-- The per-file report printed by `process_file`. -/
inductive FinalReport where
  | alreadyFullyUpdated   -- "✓ Already fully updated"
  | noChangesMade         -- "✗ No changes made"
  | updatedSuccessfully   -- "✓ Updated successfully"
deriving DecidableEq, Repr

/-- What one `process_file` run does, file I/O abstracted to values: the
pending count the gate computed (when the gate branch ran), the final
report, the content written back (if any), and the boolean return. -/
structure Outcome where
  gatePending : Option Nat
  report : FinalReport
  written : Option (List Char)
  changed : Bool
deriving DecidableEq, Repr

/-- Source lines 79-89: run the transform, write back only when the text
changed. -/
def runTransform (gp : Option Nat) (content : List Char) : Outcome :=
  let u := update_catch_blocks content
  if u = content then ⟨gp, .noChangesMade, none, false⟩
  else ⟨gp, .updatedSuccessfully, some u, true⟩

/-- Function `process_file` (source lines 56-93) on a successfully read content; the
I/O exception path is out of scope. -/
def process_file (content : List Char) : Outcome :=
  if hasSub marker content then
    let pending := needsUpdate content
    if pending = 0 then ⟨some 0, .alreadyFullyUpdated, none, false⟩
    else runTransform (some pending) content
  else runTransform none content

/-! ## Concrete documents used by the claims

PHP text is written with `\x27` for single quotes, `\x22` for double quotes
and `\x7b`/`\x7d` for braces.  Each document is one occurrence of the
three-statement idiom the script targets (the logging line ends in `];`
with no closing parenthesis, which is the shape the transform pattern
actually requires), with the variation relevant to its claim. -/

/-- A pending candidate indented with two spaces (not the script's twelve). -/
def D1 : List Char := lchars
  "\x7d catch (GuzzleException $e) \x7b\n  $errorMessage = $this->extractErrorMessage($e);\n  $this->logger->error(\x27Sync failed\x27, [\x27error\x27 => $errorMessage];\n  throw new RagApiException(\x27Sync failed: \x27, $e->getCode(), $e);\n\x7d"

/-- A pending candidate whose raise literal is `'Foo failed: '`. -/
def D3 : List Char := lchars
  "\x7d catch (GuzzleException $e) \x7b\n    $errorMessage = $this->extractErrorMessage($e);\n    $this->logger->error(\x27Upload failed\x27, [\x27error\x27 => $errorMessage];\n    throw new RagApiException(\x27Foo failed: \x27, $e->getCode(), $e);\n\x7d"

/-- A candidate whose raise-line first positional argument is a
double-quoted string (not a single-quoted literal) that happens to contain
the text `throw new RagApiException('Oops')`. -/
def D4 : List Char := lchars
  "\x7d catch (GuzzleException $e) \x7b\n    $errorMessage = $this->extractErrorMessage($e);\n    $this->logger->error(\x27x\x27, [\x27error\x27 => $errorMessage];\n    throw new RagApiException(\x22throw new RagApiException(\x27Oops\x27)\x22, $e->getCode(), $e);\n\x7d"

/-- A candidate whose raise-line first positional argument is a variable. -/
def DV : List Char := lchars
  "\x7d catch (GuzzleException $e) \x7b\n    $errorMessage = $this->extractErrorMessage($e);\n    $this->logger->error(\x27x\x27, [\x27error\x27 => $errorMessage];\n    throw new RagApiException($msg, $e->getCode(), $e);\n\x7d"

/-- An occurrence whose logging field mapping has a second named field
after `error`. -/
def D6 : List Char := lchars
  "\x7d catch (GuzzleException $e) \x7b\n    $errorMessage = $this->extractErrorMessage($e);\n    $this->logger->error(\x27x\x27, [\x27error\x27 => $errorMessage, \x27ctx\x27 => $ctx];\n    throw new RagApiException(\x27B: \x27, $e->getCode(), $e);\n\x7d"

/-- A document containing the enriched marker whose loose gate pattern
matches once but whose text the strict transform pattern never matches. -/
def D10 : List Char := lchars
  "$a = $this->extractErrorData($e);\n$errorMessage = $this->extractErrorMessage($e);\n$this->logger->error(\x27x\x27, $ctx);\nthrow new RagApiException(\x27y: \x27 . $x, $e->getCode());\n"

/-- A document containing the enriched marker and no pending block. -/
def D7w : List Char := lchars "$a = $this->extractErrorData($e);\n"

/-- A document with no occurrence of the idiom and no marker. -/
def DN : List Char := lchars "<?php echo 1;\n"

/-- The transform's output on `D3`, spelled out in full: every synthesized
line is indented with the fixed twelve spaces, and the re-synthesized raise
arguments carry a literal backslash before each `$` (Python keeps the
backslash of `\$` in the source's f-strings). -/
def E3 : List Char := lchars
  "\x7d catch (GuzzleException $e) \x7b\n    $errorMessage = $this->extractErrorMessage($e);\n            $errorData = $this->extractErrorData($e);\n            $errorCode = $this->extractErrorCode($e);\n    $this->logger->error(\x27Upload failed\x27, [\x27error\x27 => $errorMessage, \x27error_code\x27 => $errorCode];\n            throw new RagApiException(\n                \x27Foo failed: \x27 . \\$errorMessage,\n                \\$e->getCode(),\n                \\$e,\n                null,\n                \\$errorCode,\n                \\$errorData\n            );\n\x7d"

/-! ## Verification devices

These definitions are not part of the script: they are the vocabulary in
which the claims are stated — splitting an emitted raise statement into its
comma-separated arguments, and the decomposition certificate produced by a
successful match. -/

/-- Split a character list at every occurrence of `c`. -/
def splitOn (c : Char) : List Char → List (List Char)
  | [] => [[]]
  | x :: xs =>
    if x = c then [] :: splitOn c xs
    else
      match splitOn c xs with
      | [] => [[x]]
      | h :: t => (x :: h) :: t

/-- Drop leading whitespace. -/
def trimL : List Char → List Char
  | [] => []
  | x :: xs => if isSpace x then trimL xs else x :: xs

/-- Drop trailing whitespace. -/
def trimR : List Char → List Char
  | [] => []
  | x :: xs =>
    match trimR xs with
    | [] => if isSpace x then [] else [x]
    | y :: ys => x :: y :: ys

/-- Drop surrounding whitespace. -/
def trimWs (s : List Char) : List Char := trimR (trimL s)

/-- The text of the six argument lines the replacement emits between
`throw new RagApiException(\n` and the closing `);` (source lines 41-46),
as a function of the extracted literal `d`. -/
def argRegion (d : List Char) : List Char :=
  indent12 ++ lchars "    \x27" ++ d ++ lchars "\x27 . \\$errorMessage,\n"
    ++ indent12 ++ lchars "    \\$e->getCode(),\n"
    ++ indent12 ++ lchars "    \\$e,\n"
    ++ indent12 ++ lchars "    null,\n"
    ++ indent12 ++ lchars "    \\$errorCode,\n"
    ++ indent12 ++ lchars "    \\$errorData\n"

/-- What a successful `matchAtoms` run certifies: each atom in turn took an
admissible consumption length at the current suffix. -/
def Decomp : List Atom → List Nat → List Char → Prop
  | [], ks, _ => ks = []
  | a :: as, ks, s => ∃ k ks', ks = k :: ks' ∧ k ∈ candidates a s ∧ Decomp as ks' (s.drop k)

/-- The per-atom lengths of the transform pattern's match on `D3`. -/
def ksD3 : List Nat :=
  [1, 1, 5, 1, 16, 1, 3, 1, 1, 0, 1, 4, 13, 1, 1, 1, 31, 0, 1, 4, 21, 15, 1,
   1, 1, 1, 5, 1, 1, 2, 1, 13, 1, 1, 0, 1, 4, 5, 1, 3, 1, 16, 14, 1, 1, 14, 1, 3, 1]

end UpdateExceptions

namespace UpdateExceptions

/-! ## Theorems -/

/-- Claim C1, counterexample.  The occurrence in `D1` is captured with
two-space indentation, yet the synthesized `$errorData` extraction line is
emitted with the fixed twelve-space indentation, not the captured one: the
replacement builder does not reuse the indentation of the occurrence. -/
theorem c1_counter :
    (search transformPat D1).isSome = true ∧
    hasSub (lchars "\n            $errorData") (update_catch_blocks D1) = true ∧
    hasSub (lchars "\n  $errorData") (update_catch_blocks D1) = false := by
  decide

/-- Claim C3 (code bug evaluation).  On the candidate with raise literal
`'Foo failed: '`, the rewritten raise's first argument is
`'Foo failed: ' . \$errorMessage` — with a literal backslash before
`$errorMessage` — not the `'Foo failed: ' . $errorMessage` the
specification states: Python keeps the backslash of the invalid escape
`\$` in the f-strings of source lines 41-46. -/
theorem c3_backslash_emitted :
    update_catch_blocks D3 = E3 ∧
    hasSub (lchars "\x27Foo failed: \x27 . $errorMessage") E3 = false ∧
    hasSub (lchars "\x27Foo failed: \x27 . \\$errorMessage") E3 = true := by
  decide

/-- Claim C4, counterexample.  `D4`'s raise-line first positional argument
is a double-quoted string, not a single-quoted literal, yet the span is
matched and rewritten (the inner literal search finds
`throw new RagApiException('Oops'` inside the double-quoted string), so it
is not returned unchanged. -/
theorem c4_counter :
    (search transformPat D4).isSome = true ∧
    update_catch_blocks D4 ≠ D4 ∧
    hasSub (lchars "\x27Oops\x27 . \\$errorMessage") (update_catch_blocks D4) = true := by
  decide

/-- Claim C7, counterexample.  A document with zero occurrences of the
idiom (and no enriched marker) is reported "no changes made", not the
gate's "already fully updated" classification: the gate only runs when the
document contains the substring `extractErrorData`. -/
theorem c7_counter :
    search transformPat DN = none ∧
    (process_file DN).report = FinalReport.noChangesMade ∧
    FinalReport.noChangesMade ≠ FinalReport.alreadyFullyUpdated := by
  decide

/-! ### Helper lemmas -/

/-- A whitespace character is not `t`, so the inner literal-extraction
pattern (whose first atom is the literal `throw`) cannot start on it. -/
theorem ws_ne_t {c : Char} (h : isSpace c = true) : ('t' : Char) ≠ c := by
  intro e
  rw [← e] at h
  exact absurd h (by decide)

theorem litPref_throw_ws {c : Char} (h : isSpace c = true) (s : List Char) :
    litPref (lchars "throw") (c :: s) = false := by
  show litPref ('t' :: lchars "hrow") (c :: s) = false
  rw [litPref, if_neg (ws_ne_t h)]

theorem matchAtoms_descPat_ws {c : Char} (h : isSpace c = true) (s : List Char) :
    matchAtoms descPat (c :: s) = none := by
  show matchAtoms (Atom.lit (lchars "throw") :: descPat.tail) (c :: s) = none
  rw [matchAtoms]
  simp [candidates, litPref_throw_ws h]

theorem search_descPat_ws_cons {c : Char} (h : isSpace c = true) (s : List Char) :
    search descPat (c :: s) = (search descPat s).map (fun p => (p.1 + 1, p.2)) := by
  rw [search, matchAtoms_descPat_ws h]

theorem search_descPat_ws_skip {i : List Char} (hi : ∀ c ∈ i, isSpace c = true)
    {t : List Char} (ht : search descPat t = none) :
    search descPat (i ++ t) = none := by
  induction i with
  | nil => simpa using ht
  | cons c i ih =>
    rw [List.cons_append, search_descPat_ws_cons (hi c (by simp)),
      ih (fun d hd => hi d (by simp [hd]))]
    rfl

/-! ### Claim theorems (continued) -/

/-- Claim C1, amended.  Whenever the literal extraction succeeds, the
replacement emits every newly synthesized line behind `indent12`, the fixed
twelve-space string of source line 22 — the same for every match and every
captured indentation, rather than the indentation captured from the
occurrence. -/
theorem c1_fixed_indent (g1 g2 g3 g0 d : List Char) (h : descOf g3 = some d) :
    indent12 = List.replicate 12 ' ' ∧
    replacement g1 g2 g3 g0 =
      g1 ++ lchars "\n"
        ++ indent12 ++ lchars "$errorData = $this->extractErrorData($e);\n"
        ++ indent12 ++ lchars "$errorCode = $this->extractErrorCode($e);\n"
        ++ g2 ++ lchars ", \x27error_code\x27 => $errorCode];\n"
        ++ indent12 ++ lchars "throw new RagApiException(\n"
        ++ indent12 ++ lchars "    \x27" ++ d ++ lchars "\x27 . \\$errorMessage,\n"
        ++ indent12 ++ lchars "    \\$e->getCode(),\n"
        ++ indent12 ++ lchars "    \\$e,\n"
        ++ indent12 ++ lchars "    null,\n"
        ++ indent12 ++ lchars "    \\$errorCode,\n"
        ++ indent12 ++ lchars "    \\$errorData\n"
        ++ indent12 ++ lchars ");" := by
  refine ⟨by decide, ?_⟩
  simp only [replacement, h]

/-- Witness for `c1_fixed_indent`, at the two-space-indented match of `D1`. -/
theorem c1_fixed_indent_witness :
    descOf (lchars "  throw new RagApiException(\x27Sync failed: \x27, $e->getCode(), $e)") =
      some (lchars "Sync failed: ") ∧
    indent12 = List.replicate 12 ' ' := by
  refine ⟨by decide, ?_⟩
  exact (c1_fixed_indent (lchars "g1") (lchars "g2")
    (lchars "  throw new RagApiException(\x27Sync failed: \x27, $e->getCode(), $e)")
    (lchars "g0") (lchars "Sync failed: ") (by decide)).1

/-- Claim C4, amended.  Exactly when the inner literal-extraction search
fails on the captured raise line, the whole matched span (`match.group(0)`)
is returned byte-for-byte unchanged; the conservative fallback tests only
that search, not whether the first positional argument is a single-quoted
literal (see `c4_counter`). -/
theorem c4_passthrough (g1 g2 g3 g0 : List Char) (h : descOf g3 = none) :
    replacement g1 g2 g3 g0 = g0 := by
  simp only [replacement, h]

/-- Witness for `c4_passthrough`, at the captures of `DV` (raise-line first
argument `$msg`, a variable reference). -/
theorem c4_passthrough_witness :
    descOf (lchars "    throw new RagApiException($msg, $e->getCode(), $e)") = none ∧
    replacement
      (lchars "\x7d catch (GuzzleException $e) \x7b\n    $errorMessage = $this->extractErrorMessage($e);")
      (lchars "    $this->logger->error(\x27x\x27, [\x27error\x27 => $errorMessage")
      (lchars "    throw new RagApiException($msg, $e->getCode(), $e)")
      DV = DV :=
  ⟨by decide, c4_passthrough _ _ _ _ (by decide)⟩

/-- Claim C7, amended.  When the document contains the enriched marker
`extractErrorData` and the gate counts zero pending blocks, `process_file`
reports "already fully updated" and stops without transforming or writing.
(Documents without the marker never reach the gate; see `c7_counter`.) -/
theorem c7_gate_zero_pending (s : List Char) (hm : hasSub marker s = true)
    (hp : needsUpdate s = 0) :
    process_file s = ⟨some 0, FinalReport.alreadyFullyUpdated, none, false⟩ := by
  simp [process_file, hm, hp]

/-- Witness for `c7_gate_zero_pending` at `D7w`. -/
theorem c7_gate_zero_pending_witness :
    hasSub marker D7w = true ∧ needsUpdate D7w = 0 ∧
    process_file D7w = ⟨some 0, FinalReport.alreadyFullyUpdated, none, false⟩ :=
  ⟨by decide, by decide, c7_gate_zero_pending D7w (by decide) (by decide)⟩

/-- Claim C8.  First, if the matcher finds no occurrence anywhere in a
document, `update_catch_blocks` returns its input unchanged.  Second,
whenever the computed output equals the input, `process_file` writes
nothing back and returns `false` — this covers both the "no changes made"
path and the gate's "already fully updated" early return. -/
theorem c8_noop_and_no_write :
    (∀ s, search transformPat s = none → update_catch_blocks s = s) ∧
    (∀ s, update_catch_blocks s = s →
      (process_file s).written = none ∧ (process_file s).changed = false) := by
  constructor
  · intro s h
    simp only [update_catch_blocks, subF, h]
  · intro s h
    by_cases hm : hasSub marker s = true
    · by_cases hp : needsUpdate s = 0
      · simp [process_file, runTransform, hm, hp]
      · simp [process_file, runTransform, hm, hp, h]
    · simp [process_file, runTransform, hm, h]

/-- Witness for `c8_noop_and_no_write` at `DN` (a document with no
occurrence of the idiom). -/
theorem c8_noop_and_no_write_witness :
    search transformPat DN = none ∧ update_catch_blocks DN = DN ∧
    (process_file DN).written = none ∧ (process_file DN).changed = false := by
  have h1 : search transformPat DN = none := by decide
  have h2 := c8_noop_and_no_write.1 DN h1
  have h3 := c8_noop_and_no_write.2 DN h2
  exact ⟨h1, h2, h3.1, h3.2⟩

/-- Claim C9.  A raise line whose first positional argument is the empty
single-quoted literal `''` defeats the literal extraction (which requires
at least one character between the quotes), so the replacement builder
returns the whole matched span unchanged, for any indentation of the
captured raise line. -/
theorem c9_empty_literal (g1 g2 g0 i : List Char) (hi : ∀ c ∈ i, isSpace c = true) :
    replacement g1 g2
      (i ++ lchars "throw new RagApiException(\x27\x27, $e->getCode(), $e)") g0 = g0 := by
  have hd : descOf (i ++ lchars "throw new RagApiException(\x27\x27, $e->getCode(), $e)") = none := by
    rw [descOf, search_descPat_ws_skip hi (by decide)]
    rfl
  simp only [replacement, hd]

/-- Witness for `c9_empty_literal` with a four-space indent. -/
theorem c9_empty_literal_witness :
    (∀ c ∈ lchars "    ", isSpace c = true) ∧
    replacement (lchars "g1") (lchars "g2")
      (lchars "    " ++ lchars "throw new RagApiException(\x27\x27, $e->getCode(), $e)")
      (lchars "g0") = lchars "g0" :=
  ⟨by decide, c9_empty_literal _ _ _ _ (by decide)⟩

/-! ### Lemmas about `splitOn` and trimming (for the arity claim) -/

theorem splitOn_sep {c : Char} {a : List Char} (ha : ∀ x ∈ a, ¬ x = c) (s : List Char) :
    splitOn c (a ++ c :: s) = a :: splitOn c s := by
  induction a with
  | nil => simp [splitOn]
  | cons x xs ih =>
    rw [List.cons_append, splitOn, if_neg (ha x (by simp)),
      ih (fun y hy => ha y (by simp [hy]))]

theorem splitOn_free {c : Char} {a : List Char} (ha : ∀ x ∈ a, ¬ x = c) :
    splitOn c a = [a] := by
  induction a with
  | nil => rfl
  | cons x xs ih =>
    rw [splitOn, if_neg (ha x (by simp)), ih (fun y hy => ha y (by simp [hy]))]

theorem trimL_space_run {a : List Char} (ha : ∀ x ∈ a, isSpace x = true) (s : List Char) :
    trimL (a ++ s) = trimL s := by
  induction a with
  | nil => rfl
  | cons x xs ih =>
    rw [List.cons_append, trimL, if_pos (ha x (by simp)),
      ih (fun y hy => ha y (by simp [hy]))]

theorem trimL_nospace {x : Char} (hx : isSpace x = false) (s : List Char) :
    trimL (x :: s) = x :: s := by
  rw [trimL, if_neg (by simp [hx])]

theorem trimR_append {b : List Char} (hb : trimR b ≠ []) (a : List Char) :
    trimR (a ++ b) = a ++ trimR b := by
  induction a with
  | nil => rfl
  | cons x xs ih =>
    rw [List.cons_append, trimR, ih]
    cases h : xs ++ trimR b with
    | nil => exact absurd (List.append_eq_nil.mp h).2 hb
    | cons y ys => simp [h]

/-- The region `argRegion d`, regrouped around its five separating commas. -/
theorem argRegion_decomp (d : List Char) :
    argRegion d =
      (indent12 ++ lchars "    \x27" ++ d ++ lchars "\x27 . \\$errorMessage") ++ ',' ::
      ((lchars "\n" ++ indent12 ++ lchars "    \\$e->getCode()") ++ ',' ::
      ((lchars "\n" ++ indent12 ++ lchars "    \\$e") ++ ',' ::
      ((lchars "\n" ++ indent12 ++ lchars "    null") ++ ',' ::
      ((lchars "\n" ++ indent12 ++ lchars "    \\$errorCode") ++ ',' ::
      (lchars "\n" ++ indent12 ++ lchars "    \\$errorData\n"))))) := by
  have e1 : lchars "\x27 . \\$errorMessage,\n" =
      lchars "\x27 . \\$errorMessage" ++ ',' :: lchars "\n" := by decide
  have e2 : lchars "    \\$e->getCode(),\n" =
      lchars "    \\$e->getCode()" ++ ',' :: lchars "\n" := by decide
  have e3 : lchars "    \\$e,\n" = lchars "    \\$e" ++ ',' :: lchars "\n" := by decide
  have e4 : lchars "    null,\n" = lchars "    null" ++ ',' :: lchars "\n" := by decide
  have e5 : lchars "    \\$errorCode,\n" =
      lchars "    \\$errorCode" ++ ',' :: lchars "\n" := by decide
  rw [argRegion, e1, e2, e3, e4, e5]
  simp [List.append_assoc]

/-- Trimming the first argument line: the sixteen leading spaces go, the
quoted literal and the concatenation with the message variable stay. -/
theorem trimWs_piece1 (d : List Char) :
    trimWs (indent12 ++ lchars "    \x27" ++ d ++ lchars "\x27 . \\$errorMessage") =
      sq :: (d ++ lchars "\x27 . \\$errorMessage") := by
  have e7 : lchars "    \x27" = lchars "    " ++ [sq] := by decide
  have hsp : ∀ x ∈ indent12 ++ lchars "    ", isSpace x = true := by decide
  have hsq : isSpace sq = false := by decide
  have htr : trimR (lchars "\x27 . \\$errorMessage") = lchars "\x27 . \\$errorMessage" := by
    decide
  have htn : trimR (lchars "\x27 . \\$errorMessage") ≠ [] := by decide
  rw [trimWs,
    show indent12 ++ lchars "    \x27" ++ d ++ lchars "\x27 . \\$errorMessage"
      = (indent12 ++ lchars "    ") ++ (sq :: (d ++ lchars "\x27 . \\$errorMessage")) by
      simp [e7, List.append_assoc],
    trimL_space_run hsp, trimL_nospace hsq,
    show sq :: (d ++ lchars "\x27 . \\$errorMessage")
      = (sq :: d) ++ lchars "\x27 . \\$errorMessage" from rfl,
    trimR_append htn, htr]

/-- Claim C5.  Whenever the literal extraction succeeds, the emitted text
ends with a raise statement whose parenthesized region is `argRegion d`,
and that region splits on commas into exactly six positional arguments, in
the fixed order: description concatenated with the message variable, the
native code accessor, the wrapped cause, the `null` placeholder, the
derived error code and the derived error data (each as the code spells it,
backslash included). -/
theorem c5_six_args (g1 g2 g3 g0 d : List Char) (h : descOf g3 = some d)
    (hd : ∀ x ∈ d, ¬ x = ',') :
    (∃ pre, replacement g1 g2 g3 g0 =
        pre ++ (indent12 ++ lchars "throw new RagApiException(\n")
            ++ argRegion d ++ (indent12 ++ lchars ");")) ∧
    (splitOn ',' (argRegion d)).map trimWs =
      [sq :: (d ++ lchars "\x27 . \\$errorMessage"),
       lchars "\\$e->getCode()", lchars "\\$e", lchars "null",
       lchars "\\$errorCode", lchars "\\$errorData"] ∧
    ((splitOn ',' (argRegion d)).map trimWs).length = 6 := by
  have h1 : ∀ x ∈ indent12 ++ lchars "    \x27" ++ d ++ lchars "\x27 . \\$errorMessage",
      ¬ x = ',' := by
    intro x hx
    simp only [List.append_assoc, List.mem_append] at hx
    rcases hx with hx | hx | hx | hx
    · exact (by decide : ∀ y ∈ indent12, ¬ y = ',') x hx
    · exact (by decide : ∀ y ∈ lchars "    \x27", ¬ y = ',') x hx
    · exact hd x hx
    · exact (by decide : ∀ y ∈ lchars "\x27 . \\$errorMessage", ¬ y = ',') x hx
  have hsplit : splitOn ',' (argRegion d) =
      [indent12 ++ lchars "    \x27" ++ d ++ lchars "\x27 . \\$errorMessage",
       lchars "\n" ++ indent12 ++ lchars "    \\$e->getCode()",
       lchars "\n" ++ indent12 ++ lchars "    \\$e",
       lchars "\n" ++ indent12 ++ lchars "    null",
       lchars "\n" ++ indent12 ++ lchars "    \\$errorCode",
       lchars "\n" ++ indent12 ++ lchars "    \\$errorData\n"] := by
    rw [argRegion_decomp, splitOn_sep h1, splitOn_sep (by decide),
      splitOn_sep (by decide), splitOn_sep (by decide), splitOn_sep (by decide),
      splitOn_free (by decide)]
  have hmap : (splitOn ',' (argRegion d)).map trimWs =
      [sq :: (d ++ lchars "\x27 . \\$errorMessage"),
       lchars "\\$e->getCode()", lchars "\\$e", lchars "null",
       lchars "\\$errorCode", lchars "\\$errorData"] := by
    rw [hsplit]
    simp only [List.map_cons, List.map_nil]
    rw [trimWs_piece1]
    congr 1
  have hlen : ((splitOn ',' (argRegion d)).map trimWs).length = 6 := by
    rw [hmap]
    rfl
  have hpre : replacement g1 g2 g3 g0 =
      (g1 ++ lchars "\n"
        ++ indent12 ++ lchars "$errorData = $this->extractErrorData($e);\n"
        ++ indent12 ++ lchars "$errorCode = $this->extractErrorCode($e);\n"
        ++ g2 ++ lchars ", \x27error_code\x27 => $errorCode];\n")
      ++ (indent12 ++ lchars "throw new RagApiException(\n")
      ++ argRegion d ++ (indent12 ++ lchars ");") := by
    simp only [replacement, h, argRegion, List.append_assoc]
  exact ⟨⟨_, hpre⟩, hmap, hlen⟩

/-- Witness for `c5_six_args`, at the captures of `D3`
(`d = "Foo failed: "`). -/
theorem c5_six_args_witness :
    descOf (lchars "    throw new RagApiException(\x27Foo failed: \x27, $e->getCode(), $e)") =
      some (lchars "Foo failed: ") ∧
    ((splitOn ',' (argRegion (lchars "Foo failed: "))).map trimWs).length = 6 :=
  ⟨by decide, (c5_six_args (lchars "g1") (lchars "g2")
      (lchars "    throw new RagApiException(\x27Foo failed: \x27, $e->getCode(), $e)")
      (lchars "g0") (lchars "Foo failed: ") (by decide) (by decide)).2.2⟩

/-- Claim C10.  On `D10` the gate's loose pattern counts one block still
needing update, while the strict transform pattern finds nothing and
`update_catch_blocks` returns the text unchanged: the reported pending
count exceeds the number of rewrites performed (zero). -/
theorem c10_gate_looser :
    hasSub marker D10 = true ∧
    needsUpdate D10 = 1 ∧
    (process_file D10).gatePending = some 1 ∧
    update_catch_blocks D10 = D10 ∧
    (process_file D10).report = FinalReport.noChangesMade := by
  decide

/-! ### Soundness of the matcher (for the field-mapping claim) -/

theorem candidates_lit_mem {l s : List Char} {k : Nat}
    (h : k ∈ candidates (Atom.lit l) s) : litPref l s = true ∧ k = l.length := by
  by_cases hp : litPref l s = true
  · simp [candidates, hp] at h
    exact ⟨hp, h⟩
  · simp [candidates, hp] at h

theorem litPref_decomp : ∀ (l s : List Char), litPref l s = true → s = l ++ s.drop l.length := by
  intro l
  induction l with
  | nil => intro s _; rfl
  | cons a as ih =>
    intro s h
    cases s with
    | nil => exact absurd h (by simp [litPref])
    | cons b bs =>
      rw [litPref] at h
      by_cases hab : a = b
      · subst hab
        rw [if_pos rfl] at h
        simpa using congrArg (a :: ·) (ih bs h)
      · rw [if_neg hab] at h
        exact absurd h (by simp)

theorem matchAtoms_sound : ∀ (atoms : List Atom) (s : List Char) (ks : List Nat),
    matchAtoms atoms s = some ks → Decomp atoms ks s := by
  intro atoms
  induction atoms with
  | nil =>
    intro s ks h
    simp only [matchAtoms, Option.some.injEq] at h
    show ks = []
    exact h.symm
  | cons a as ih =>
    intro s ks h
    rw [matchAtoms] at h
    obtain ⟨k, hk, hf⟩ := List.exists_of_findSome?_eq_some h
    obtain ⟨ks', ho, he⟩ := Option.map_eq_some'.mp hf
    exact ⟨k, ks', he.symm, hk, ih _ _ ho⟩

theorem search_sound : ∀ (pat : List Atom) (s : List Char) (i : Nat) (ks : List Nat),
    search pat s = some (i, ks) → matchAtoms pat (s.drop i) = some ks := by
  intro pat s
  induction s with
  | nil =>
    intro i ks h
    rw [search] at h
    obtain ⟨ks', ho, he⟩ := Option.map_eq_some'.mp h
    injection he with h1 h2
    subst h1; subst h2
    exact ho
  | cons x rest ih =>
    intro i ks h
    rw [search] at h
    cases hm : matchAtoms pat (x :: rest) with
    | some ks0 =>
      rw [hm] at h
      injection h with h'
      injection h' with h1 h2
      subst h1; subst h2
      exact hm
    | none =>
      rw [hm] at h
      obtain ⟨⟨i', ks'⟩, ho, he⟩ := Option.map_eq_some'.mp h
      injection he with h1 h2
      subst h1; subst h2
      exact ih i' ks' ho

theorem decomp_drop : ∀ (j : Nat) (atoms : List Atom) (ks : List Nat) (s : List Char),
    Decomp atoms ks s → Decomp (atoms.drop j) (ks.drop j) (s.drop (sumTake ks j)) := by
  intro j
  induction j with
  | zero => intro atoms ks s h; simpa [sumTake] using h
  | succ j ih =>
    intro atoms ks s h
    cases atoms with
    | nil =>
      have hks : ks = [] := h
      subst hks
      show Decomp [] [] _
      rfl
    | cons a as =>
      simp only [Decomp] at h
      obtain ⟨k, ks', rfl, hk, hrest⟩ := h
      have hsum : sumTake (k :: ks') (j + 1) = k + sumTake ks' j := by
        simp [sumTake]
      rw [show (a :: as).drop (j + 1) = as.drop j from rfl,
        show (k :: ks').drop (j + 1) = ks'.drop j from rfl, hsum, ← List.drop_drop]
      exact ih as ks' (s.drop k) hrest

theorem sumTake_drop_two {ks : List Nat} {j k1 k2 : Nat} {t : List Nat}
    (h : ks.drop j = k1 :: k2 :: t) :
    sumTake ks (j + 2) = sumTake ks j + k1 + k2 := by
  rw [sumTake, List.take_add, h]
  simp [sumTake, List.sum_append]
  omega

/-- Claim C6.  First, structurally: in every span the transform pattern
matches, the character immediately after the captured `$errorMessage` of
the logging line (atoms 31 and 32 of `transformPat`) is `]` — the field
mapping closes right after the `error` binding, so an occurrence whose
mapping carries any additional named field after `error` can never be the
matched span.  Second, concretely: on `D6`, whose mapping has the extra
field `'ctx' => $ctx`, the matcher finds nothing and the document is left
untransformed. -/
theorem c6_extra_field_disqualifies :
    (∀ s i ks, search transformPat s = some (i, ks) →
      (s.drop i).drop (sumTake ks 31) =
        lchars "$errorMessage]" ++ (s.drop i).drop (sumTake ks 33)) ∧
    search transformPat D6 = none ∧ update_catch_blocks D6 = D6 := by
  refine ⟨?_, by decide, by decide⟩
  intro s i ks h
  have hm := search_sound transformPat s i ks h
  have hd := matchAtoms_sound transformPat (s.drop i) ks hm
  have h31 := decomp_drop 31 transformPat ks (s.drop i) hd
  rw [show transformPat.drop 31
      = Atom.lit (lchars "$errorMessage") :: Atom.lit (lchars "]") :: transformPat.drop 33
      from rfl] at h31
  simp only [Decomp] at h31
  obtain ⟨k1, ks1, e1, m1, k2, ks2, e2, m2, -⟩ := h31
  obtain ⟨p1, hk1⟩ := candidates_lit_mem m1
  obtain ⟨p2, hk2⟩ := candidates_lit_mem m2
  set u := s.drop i with hu
  set u31 := u.drop (sumTake ks 31) with hu31
  have d1 := litPref_decomp (lchars "$errorMessage") u31 p1
  have d2 := litPref_decomp (lchars "]") (u31.drop k1) p2
  have hdrop : ks.drop 31 = k1 :: k2 :: ks2 := by rw [e1, e2]
  have hsum : sumTake ks 33 = sumTake ks 31 + k1 + k2 := by
    rw [show (33 : Nat) = 31 + 2 from rfl]
    exact sumTake_drop_two hdrop
  have hRHS : (u31.drop k1).drop k2 = u.drop (sumTake ks 33) := by
    rw [List.drop_drop, hu31, List.drop_drop, hsum, Nat.add_assoc]
  calc u31 = lchars "$errorMessage" ++ u31.drop k1 := by rw [hk1]; exact d1
    _ = lchars "$errorMessage" ++ (lchars "]" ++ (u31.drop k1).drop k2) := by
        rw [hk2]; exact congrArg _ d2
    _ = lchars "$errorMessage]" ++ (u31.drop k1).drop k2 := by
        rw [← List.append_assoc,
          show lchars "$errorMessage" ++ lchars "]" = lchars "$errorMessage]" from by decide]
    _ = lchars "$errorMessage]" ++ u.drop (sumTake ks 33) := by rw [hRHS]

/-- Witness for `c6_extra_field_disqualifies`, at the match of `D3`: the
character right after the captured `$errorMessage` of its logging line is
`]`. -/
theorem c6_witness :
    search transformPat D3 = some (0, ksD3) ∧
    D3.drop (sumTake ksD3 31) = lchars "$errorMessage]" ++ D3.drop (sumTake ksD3 33) := by
  refine ⟨by decide, ?_⟩
  have h := c6_extra_field_disqualifies.1 D3 0 ksD3 (by decide)
  simpa using h

/-! ### Idempotence evidence

A fully general idempotence theorem over the backtracking matcher was not
mechanized; the following concrete checks record that double application
agrees with single application on the documents used above, including a
document holding both an eligible and an ineligible candidate. -/

/-- Double application agrees with single application on `D3`. -/
theorem update_twice_D3 :
    update_catch_blocks (update_catch_blocks D3) = update_catch_blocks D3 := by
  decide

/-- Double application agrees with single application on a document with an
eligible candidate followed by an ineligible (variable-argument) one. -/
theorem update_twice_mixed :
    update_catch_blocks (update_catch_blocks (D3 ++ lchars "\n" ++ DV)) =
      update_catch_blocks (D3 ++ lchars "\n" ++ DV) := by
  decide

end UpdateExceptions
